import Mathlib

/-!
Verification of the BSB checker service (`bsb_checker_app/main.py`).

The store is modelled as a list of rows of the `bsb_records` table; the
FastAPI endpoints become pure functions from a request and the current
store contents to an HTTP-level result.
-/

/-- One row of the `bsb_records` table.  Field names follow the column
names declared in `bsb_table` / the `BSBRecord` SQLAlchemy model
(`Payments_Accepted` maps the `"Payments Accepted"` CSV column). -/
structure BSBRecord where
  BSB : String
  Bank : String
  Branch : String
  Street : String
  Suburb : String
  State : String
  PostCode : String
  Payments_Accepted : String
  deriving Repr, DecidableEq, Inhabited

/-- An HTTP error response raised via `HTTPException`: status code plus the
`detail` string that FastAPI serialises as `{"detail": ...}`. -/
structure HTTPError where
  status : Nat
  detail : String
  deriving Repr, DecidableEq

/-- The JSON object returned by `GET /bsb/{bsb_number}` on success, with the
camelCase keys built at the end of `get_bsb_details`. -/
structure BsbDetails where
  bsb : String
  bankName : String
  branchName : String
  street : String
  suburb : String
  state : String
  postCode : String
  supportedPaymentSystem : String
  deriving Repr, DecidableEq

/-- Whether `needle` occurs at the start of `hay` (on character lists). -/
def charsStartWith : List Char → List Char → Bool
  | _, [] => true
  | [], _ :: _ => false
  | a :: as, b :: bs => a == b && charsStartWith as bs

/-- Whether `needle` occurs contiguously somewhere in `hay` (on character
lists): the semantics of Python's `needle in hay` substring test. -/
def charsContain : List Char → List Char → Bool
  | [], needle => needle.isEmpty
  | a :: t, needle => charsStartWith (a :: t) needle || charsContain t needle

/-- Lowercase a string character-wise, as Python `str.lower()` does on the
ASCII data these records carry. -/
def lowerChars (s : String) : List Char :=
  s.data.map Char.toLower

/-- Case-insensitive substring test: Python `needle.lower() in hay.lower()`. -/
def containsCI (hay needle : String) : Bool :=
  charsContain (lowerChars hay) (lowerChars needle)

/-- Executable lexicographic `≤` on character lists (shortlex on equal heads):
the order SQLite's default BINARY collation and Python string comparison use
on this data. -/
def lexLe : List Char → List Char → Bool
  | [], _ => true
  | _ :: _, [] => false
  | a :: as, b :: bs => if a == b then lexLe as bs else decide (a < b)

/-- Executable lexicographic `≤` on strings. -/
def strLe (a b : String) : Bool :=
  lexLe a.data b.data

instance : DecidableRel (fun a b : String => strLe a b = true) :=
  fun _ _ => inferInstance

instance : DecidableRel (fun a b : String => strLe b a = true) :=
  fun _ _ => inferInstance

/-- Handler of `GET /bsb/{bsb_number}` (`get_bsb_details`, main.py:174-201):
reject the key unless it has exactly 7 characters with a hyphen at index 3
(400, `"Invalid BSB format. Use XXX-XXX."`); then look the key up exactly in
the store (the SQLAlchemy `filter(BSBRecord.BSB == bsb_number).first()`);
a miss is 404 `"BSB number not found"`; a hit returns the stored fields
under the camelCase response keys. -/
def get_bsb_details (bsb_number : String) (store : List BSBRecord) :
    Except HTTPError BsbDetails :=
  if !(bsb_number.length == 7 && bsb_number.data[3]? == some '-') then
    .error ⟨400, "Invalid BSB format. Use XXX-XXX."⟩
  else
    match store.find? (fun r => r.BSB == bsb_number) with
    | none => .error ⟨404, "BSB number not found"⟩
    | some r =>
        .ok ⟨r.BSB, r.Bank, r.Branch, r.Street, r.Suburb, r.State,
          r.PostCode, r.Payments_Accepted⟩

/-- Sort a list of strings in ascending lexicographic order (SQL
`ORDER BY` ascending). -/
def sortAscending (l : List String) : List String :=
  List.insertionSort (fun a b => strLe a b = true) l

/-- Sort a list of strings in descending lexicographic order, the effect of
SQL `ORDER BY Bank DESC` on the distinct bank names. -/
def sortDescending (l : List String) : List String :=
  List.insertionSort (fun a b => strLe b a = true) l

/-- Handler of `GET /banks` (`get_all_banks`, main.py:156-172): SQL
`SELECT DISTINCT Bank ... ORDER BY Bank DESC`, then the Python list
comprehension `[bank[0] for bank in banks_query if bank[0]]` drops falsy
(empty) names.  An empty store yields `[]` with status 200. -/
def get_all_banks (store : List BSBRecord) : List String :=
  (sortDescending ((store.map (fun r => r.Bank)).dedup)).filter
    (fun b => b != "")

/-- Check a function against an optional value, accepting an absent one: the
Python idiom of applying a filter only when its query parameter was given. -/
def optSatisfies {β : Type} (o : Option β) (f : β → Bool) : Bool :=
  match o with
  | none => true
  | some x => f x

/-- The conjunction of the supplied filter criteria on one record: an absent
criterion accepts every record. -/
def acceptsCriteria (name state payments_accepted : Option String)
    (r : BSBRecord) : Bool :=
  optSatisfies name (fun n => containsCI r.Bank n) &&
  optSatisfies state (fun s => lowerChars r.State == lowerChars s) &&
  optSatisfies payments_accepted (fun p => containsCI r.Payments_Accepted p)

/-- Membership of a state code in the accepted code set, validated
case-insensitively as spec §4.4 prescribes. -/
def stateAccepted (validStates : List String) (s : String) : Bool :=
  validStates.any (fun v => lowerChars v == lowerChars s)

/-- Modelled from the spec: the example accepted Australian state/territory
code set of §4.4; the spec makes the exact set implementer-defined (and the
repository's tests accept the code `"AS"`, which is outside this example
set, so no fixed set can satisfy both — hence the set stays a parameter of
`filter_banks` and this one is used to instantiate concrete statements). -/
def australianStates : List String :=
  ["NSW", "VIC", "QLD", "SA", "WA", "TAS", "NT", "ACT"]

/-- Modelled from the spec: the handler of `GET /banks/filter` is absent from
the repository's source (only `test_main.py` exercises it), so it is
reconstructed from spec §4.4 `filterBanks` with §6's error row and §7's
`InvalidState`: the three criteria are optional; a supplied `state` is first
validated case-insensitively against the accepted code set (a parameter,
since the spec leaves the set implementer-defined) and rejected with
400 `"Invalid state code"` when it is not in the set; otherwise `name` is a
case-insensitive substring match on the bank name, `state` a
case-insensitive exact match on the state, `payments_accepted` a
case-insensitive substring match on the stored payment-systems field;
criteria combine with AND and the result is the deduplicated bank names of
the matching records in ascending lexicographic order. -/
def filter_banks (validStates : List String)
    (name state payments_accepted : Option String)
    (store : List BSBRecord) : Except HTTPError (List String) :=
  if optSatisfies state (stateAccepted validStates) then
    .ok (sortAscending
      (((store.filter (acceptsCriteria name state payments_accepted)).map
        (fun r => r.Bank)).dedup))
  else
    .error ⟨400, "Invalid state code"⟩

/-- Failure modes of the upstream fetch: `requests.get` raising on a network
error or on the 60-second timeout, or `response.raise_for_status()` raising
on a non-success status — all of them `requests.exceptions.RequestException`s. -/
inductive FetchError
  | network
  | timeout
  | badStatus (code : Nat)
  deriving Repr, DecidableEq

/-- Failure modes of `pd.read_csv` relevant to this payload: `ParserError`
on a structurally bad payload, `EmptyDataError` when nothing remains to
parse after `skiprows`. -/
inductive PdReadError
  | tokenizeError
  | emptyData
  deriving Repr, DecidableEq

/-- Outcome of one `update_bsb_database` run, recording which `except`
handler of main.py:104-111, if any, caught the attempt. -/
inductive RefreshOutcome
  | updated
  | fetchFailed
  | parseFailed
  | unexpectedFailed
  deriving Repr, DecidableEq

/-- Read one comma-separated line into the eight named columns of the frame
(`column_names` in main.py:85). -/
def toRow : List String → Option BSBRecord
  | [b, bk, br, st, su, sta, pc, pay] => some ⟨b, bk, br, st, su, sta, pc, pay⟩
  | _ => none

/-- Parse each comma-split data line into one frame row, failing on the
first structurally bad line. -/
def parseRows : List (List String) → Option (List BSBRecord)
  | [] => some []
  | row :: rest =>
    match toRow row, parseRows rest with
    | some rec, some recs => some (rec :: recs)
    | _, _ => none

/-- Model of `pd.read_csv(csv_data, header=None, names=column_names,
dtype=str, skiprows=1)` on the already line- and comma-split payload: the
first line is dropped unconditionally (`skiprows=1`); an empty remainder
raises `EmptyDataError`; a line whose field count differs from the eight
given names is a structural parse failure (per the spec, line-level parse
errors are fatal to the whole refresh attempt). -/
def read_csv (rows : List (List String)) : Except PdReadError (List BSBRecord) :=
  if rows.drop 1 = [] then .error .emptyData
  else
    match parseRows (rows.drop 1) with
    | some df => .ok df
    | none => .error .tokenizeError

/-- Drop leading and trailing whitespace from a character list. -/
def trimChars (l : List Char) : List Char :=
  ((l.dropWhile Char.isWhitespace).reverse.dropWhile Char.isWhitespace).reverse

/-- Drop leading and trailing whitespace from a string: Python `str.strip()`. -/
def strip (s : String) : String :=
  ⟨trimChars s.data⟩

/-- The cleaning loop of main.py:91-93 (`df[col].str.strip()` over every
column) applied to one row: each stored field is the raw field trimmed of
leading and trailing whitespace, otherwise unmodified. -/
def strip_record (r : BSBRecord) : BSBRecord :=
  ⟨strip r.BSB, strip r.Bank, strip r.Branch, strip r.Street, strip r.Suburb,
    strip r.State, strip r.PostCode, strip r.Payments_Accepted⟩

/-- The eight stored field values of a record, in CSV column order. -/
def fieldsOf (r : BSBRecord) : List String :=
  [r.BSB, r.Bank, r.Branch, r.Street, r.Suburb, r.State, r.PostCode,
    r.Payments_Accepted]

/-- The refresh helper `update_bsb_database` (main.py:73-111), with the two
effects visible at this level made explicit: the fetch outcome is an
argument and the function returns the store left behind by the attempt
together with which handler, if any, caught it.  On success,
`df.to_sql(TABLE_NAME, con=engine, if_exists='replace', index=False)` drops
the `bsb_records` table — including the primary-key constraint of the
original schema — and recreates it from the frame, so the new store is
exactly the cleaned frame, and duplicate `BSB` values in the frame are
stored as-is.  `pd.errors.ParserError` is caught by its own handler;
`EmptyDataError` is not a `ParserError` and falls to the generic
`except Exception` handler; every handler only logs, so no refresh failure
escapes to a caller. -/
def update_bsb_database (fetch : Except FetchError (List (List String)))
    (store : List BSBRecord) : List BSBRecord × RefreshOutcome :=
  match fetch with
  | .error _ => (store, .fetchFailed)
  | .ok rows =>
    match read_csv rows with
    | .error .tokenizeError => (store, .parseFailed)
    | .error .emptyData => (store, .unexpectedFailed)
    | .ok df => (df.map strip_record, .updated)

/-- Phase of one background `update_bsb_database` task spawned by
`POST /update-bsb`. -/
inductive TaskPhase
  | fetching
  | writing
  | finished
  deriving Repr, DecidableEq

/-- One scheduler step of the trigger endpoint and its background refresh
tasks.  `trigger` models `trigger_update_bsb` (main.py:146-154): it calls
`background_tasks.add_task(update_bsb_database)` unconditionally — the
source contains no lock, no in-progress flag and no single-flight guard —
so a new task starts whatever the phases of the existing ones; the
framework runs each spawned task independently of the others, so any task
may advance at any step. -/
inductive RefreshStep : List TaskPhase → List TaskPhase → Prop
  | trigger (s : List TaskPhase) :
      RefreshStep s (TaskPhase.fetching :: s)
  | startWrite (a b : List TaskPhase) :
      RefreshStep (a ++ TaskPhase.fetching :: b) (a ++ TaskPhase.writing :: b)
  | finish (a b : List TaskPhase) :
      RefreshStep (a ++ TaskPhase.writing :: b) (a ++ TaskPhase.finished :: b)

/-- A payload whose two data lines carry the same BSB key. -/
def dupPayload : List (List String) :=
  [["BSB directory metadata line"],
   ["012-345", "Bank X", "Branch 1", "1 Main St", "Town", "NSW", "2000", "PEH"],
   ["012-345", "Bank X", "Branch 2", "2 Main St", "Town", "NSW", "2000", "PEH"]]


theorem charsStartWith_iff (h n : List Char) :
    charsStartWith h n = true ↔ ∃ t, h = n ++ t := by
  induction n generalizing h with
  | nil => simp [charsStartWith]
  | cons b bs ih =>
    cases h with
    | nil => simp [charsStartWith]
    | cons a as =>
      simp only [charsStartWith, Bool.and_eq_true, beq_iff_eq, ih,
        List.cons_append, List.cons.injEq]
      constructor
      · rintro ⟨rfl, t, rfl⟩
        exact ⟨t, rfl, rfl⟩
      · rintro ⟨t, rfl, rfl⟩
        exact ⟨rfl, t, rfl⟩

theorem charsContain_iff (h n : List Char) :
    charsContain h n = true ↔ ∃ p q, h = p ++ n ++ q := by
  induction h with
  | nil =>
    simp only [charsContain, List.isEmpty_iff]
    constructor
    · rintro rfl
      exact ⟨[], [], rfl⟩
    · rintro ⟨p, q, hpq⟩
      rcases List.append_eq_nil.mp (List.append_eq_nil.mp hpq.symm).1 with ⟨-, h2⟩
      exact h2
  | cons a t ih =>
    simp only [charsContain, Bool.or_eq_true, ih, charsStartWith_iff]
    constructor
    · rintro (⟨q, hq⟩ | ⟨p, q, rfl⟩)
      · exact ⟨[], q, by simpa using hq⟩
      · exact ⟨a :: p, q, rfl⟩
    · rintro ⟨p, q, hpq⟩
      cases p with
      | nil =>
        left
        exact ⟨q, by simpa using hpq⟩
      | cons x xs =>
        right
        injection hpq with h1 h2
        exact ⟨xs, q, h2⟩

theorem containsCI_iff (hay needle : String) :
    containsCI hay needle = true ↔
      ∃ p q, lowerChars hay = p ++ lowerChars needle ++ q :=
  charsContain_iff _ _

theorem lexLe_iff (x y : List Char) :
    lexLe x y = true ↔ ¬ List.Lex (· < ·) y x := by
  induction x generalizing y with
  | nil => simp [lexLe]
  | cons a as ih =>
    cases y with
    | nil =>
      simp only [lexLe]
      exact iff_of_false (by simp) (not_not_intro List.Lex.nil)
    | cons b bs =>
      simp only [lexLe]
      by_cases hab : a = b
      · subst hab
        rw [if_pos (by simp), ih bs]
        constructor
        · intro hn hl
          exact hn (List.Lex.cons_iff.mp hl)
        · intro hn hl
          exact hn (List.Lex.cons hl)
      · rw [if_neg (by simp [hab]), decide_eq_true_eq]
        constructor
        · intro hlt hl
          cases hl with
          | cons h => exact hab rfl
          | rel h => exact lt_asymm h hlt
        · intro hn
          rcases lt_trichotomy a b with h | h | h
          · exact h
          · exact absurd h hab
          · exact absurd (List.Lex.rel h) hn

theorem strLe_iff (a b : String) : strLe a b = true ↔ a ≤ b := by
  have h2 : b < a ↔ List.Lex (· < ·) b.data a.data := by
    rw [String.lt_iff_toList_lt]
    exact Iff.rfl
  rw [show (a ≤ b) ↔ ¬ b < a from not_lt.symm, h2]
  exact lexLe_iff a.data b.data

theorem strLe_total (a b : String) : strLe a b = true ∨ strLe b a = true := by
  rw [strLe_iff, strLe_iff]
  exact le_total a b

theorem strLe_trans {a b c : String} (h₁ : strLe a b = true)
    (h₂ : strLe b c = true) : strLe a c = true := by
  rw [strLe_iff] at h₁ h₂ ⊢
  exact le_trans h₁ h₂

theorem sortAscending_perm (l : List String) : List.Perm (sortAscending l) l :=
  List.perm_insertionSort _ l

theorem sortAscending_sorted (l : List String) :
    List.Sorted (· ≤ ·) (sortAscending l) := by
  haveI : IsTotal String (fun a b : String => strLe a b = true) := ⟨strLe_total⟩
  haveI : IsTrans String (fun a b : String => strLe a b = true) :=
    ⟨fun _ _ _ h₁ h₂ => strLe_trans h₁ h₂⟩
  exact (List.sorted_insertionSort _ l).imp fun hab => (strLe_iff _ _).mp hab

theorem sortDescending_perm (l : List String) : List.Perm (sortDescending l) l :=
  List.perm_insertionSort _ l

theorem sortDescending_sorted (l : List String) :
    List.Sorted (· ≥ ·) (sortDescending l) := by
  haveI : IsTotal String (fun a b : String => strLe b a = true) :=
    ⟨fun a b => strLe_total b a⟩
  haveI : IsTrans String (fun a b : String => strLe b a = true) :=
    ⟨fun _ _ _ h₁ h₂ => strLe_trans h₂ h₁⟩
  exact (List.sorted_insertionSort _ l).imp fun hab => (strLe_iff _ _).mp hab

theorem optSatisfies_iff {β : Type} (o : Option β) (f : β → Bool) :
    optSatisfies o f = true ↔ ∀ x, o = some x → f x = true := by
  cases o <;> simp [optSatisfies]

theorem sortedBankNames (p : BSBRecord → Bool) (store : List BSBRecord) :
    (sortAscending (((store.filter p).map (fun r => r.Bank)).dedup)).Nodup ∧
    List.Sorted (· < ·)
      (sortAscending (((store.filter p).map (fun r => r.Bank)).dedup)) ∧
    ∀ b, b ∈ sortAscending (((store.filter p).map (fun r => r.Bank)).dedup) ↔
      ∃ r, r ∈ store ∧ p r = true ∧ r.Bank = b := by
  have hperm := sortAscending_perm (((store.filter p).map (fun r => r.Bank)).dedup)
  have hnd : (sortAscending (((store.filter p).map (fun r => r.Bank)).dedup)).Nodup :=
    hperm.nodup_iff.mpr (List.nodup_dedup _)
  refine ⟨hnd, (sortAscending_sorted _).lt_of_le hnd, fun b => ?_⟩
  rw [hperm.mem_iff, List.mem_dedup, List.mem_map]
  constructor
  · rintro ⟨r, hr, rfl⟩
    rw [List.mem_filter] at hr
    exact ⟨r, hr.1, hr.2, rfl⟩
  · rintro ⟨r, hr, hp, rfl⟩
    exact ⟨r, List.mem_filter.mpr ⟨hr, hp⟩, rfl⟩

/-- The store the repository's own tests build in `setup_test_data`. -/
def demoStore : List BSBRecord :=
  [⟨"111-111", "Bank C", "Branch C1", "1 C St", "Cville", "CS", "3000", "All"⟩,
   ⟨"222-222", "Bank A", "Branch A1", "1 A St", "Aville", "AS", "1000", "EFT"⟩,
   ⟨"333-333", "Bank B", "Branch B1", "1 B St", "Bville", "BS", "2000", "All"⟩,
   ⟨"444-444", "Bank A", "Branch A2", "2 A St", "Aville", "AS", "1001", "None"⟩]

/-- C1 (amended): a `filterBanks` request whose supplied `state`, if any,
is in the accepted code set (membership checked case-insensitively) succeeds
and returns the deduplicated bank names, in ascending lexicographic order,
of exactly the records satisfying every supplied criterion — `name` and
`payments_accepted` as case-insensitive substring matches, `state` as a
case-insensitive exact match; with no criteria every distinct bank name is
returned and no matches yields the empty sequence; a supplied `state`
outside the accepted set instead fails with 400 `"Invalid state code"`. -/
theorem filter_banks_correct (validStates : List String)
    (name state payments_accepted : Option String) (store : List BSBRecord) :
    ((∀ s, state = some s → stateAccepted validStates s = true) →
      ∃ banks, filter_banks validStates name state payments_accepted store =
          .ok banks ∧
        banks.Nodup ∧ List.Sorted (· < ·) banks ∧
        ∀ b, b ∈ banks ↔
          ∃ r, r ∈ store ∧ r.Bank = b ∧
            (∀ n, name = some n →
              ∃ p q, lowerChars r.Bank = p ++ lowerChars n ++ q) ∧
            (∀ s, state = some s → lowerChars r.State = lowerChars s) ∧
            (∀ pa, payments_accepted = some pa →
              ∃ p q, lowerChars r.Payments_Accepted = p ++ lowerChars pa ++ q)) ∧
    (∀ s, state = some s → stateAccepted validStates s = false →
      filter_banks validStates name state payments_accepted store =
        .error ⟨400, "Invalid state code"⟩) := by
  constructor
  · intro hvalid
    have hok : optSatisfies state (stateAccepted validStates) = true :=
      (optSatisfies_iff _ _).mpr hvalid
    have heq : filter_banks validStates name state payments_accepted store =
        .ok (sortAscending
          (((store.filter (acceptsCriteria name state payments_accepted)).map
            (fun r => r.Bank)).dedup)) := by
      unfold filter_banks
      rw [if_pos hok]
    obtain ⟨h1, h2, h3⟩ :=
      sortedBankNames (acceptsCriteria name state payments_accepted) store
    refine ⟨_, heq, h1, h2, fun b => (h3 b).trans ?_⟩
    constructor
    · rintro ⟨r, hr, hacc, rfl⟩
      simp only [acceptsCriteria, Bool.and_eq_true] at hacc
      obtain ⟨⟨hn, hs⟩, hp⟩ := hacc
      refine ⟨r, hr, rfl, ?_, ?_, ?_⟩
      · intro n hn'
        exact (containsCI_iff _ _).mp ((optSatisfies_iff _ _).mp hn n hn')
      · intro s hs'
        exact beq_iff_eq.mp ((optSatisfies_iff _ _).mp hs s hs')
      · intro pa hp'
        exact (containsCI_iff _ _).mp ((optSatisfies_iff _ _).mp hp pa hp')
    · rintro ⟨r, hr, rfl, hn, hs, hp⟩
      refine ⟨r, hr, ?_, rfl⟩
      simp only [acceptsCriteria, Bool.and_eq_true]
      refine ⟨⟨?_, ?_⟩, ?_⟩
      · exact (optSatisfies_iff _ _).mpr fun n hn' =>
          (containsCI_iff _ _).mpr (hn n hn')
      · exact (optSatisfies_iff _ _).mpr fun s hs' => beq_iff_eq.mpr (hs s hs')
      · exact (optSatisfies_iff _ _).mpr fun pa hp' =>
          (containsCI_iff _ _).mpr (hp pa hp')
  · intro s hs hbad
    have hno : optSatisfies state (stateAccepted validStates) = false := by
      rw [hs]
      exact hbad
    unfold filter_banks
    rw [if_neg (by rw [hno]; exact Bool.false_ne_true)]

/-- Witness for C1: on the test store, filtering by name `"bank a"` (wrong
case) yields exactly `["Bank A"]`, and the unrecognized code `"INVALID"`
is rejected with 400, both by instantiating the general theorem. -/
theorem filter_banks_correct_witness :
    filter_banks australianStates (some "bank a") none none demoStore =
      .ok ["Bank A"] ∧
    filter_banks australianStates none (some "INVALID") none demoStore =
      .error ⟨400, "Invalid state code"⟩ :=
  ⟨rfl,
   (filter_banks_correct australianStates none (some "INVALID") none
      demoStore).2 "INVALID" rfl (by decide)⟩

/-- C1 refutation as frozen: the claim promises success (200) for every
request with any subset of criteria, but the request supplying the
unrecognized state code `"INVALID"` on the test store is answered with
400 `"Invalid state code"`. -/
theorem filter_banks_unconditional_success_refuted :
    filter_banks australianStates none (some "INVALID") none demoStore =
      .error ⟨400, "Invalid state code"⟩ :=
  rfl

/-- C6: `GET /banks` returns the distinct non-empty bank names of the
current records in descending lexicographic order, and the empty store
yields the empty sequence rather than an error. -/
theorem get_all_banks_correct (store : List BSBRecord) :
    (get_all_banks store).Nodup ∧
    List.Sorted (· > ·) (get_all_banks store) ∧
    (∀ b, b ∈ get_all_banks store ↔ b ≠ "" ∧ ∃ r, r ∈ store ∧ r.Bank = b) ∧
    get_all_banks [] = [] := by
  have hperm := sortDescending_perm ((store.map (fun r => r.Bank)).dedup)
  have hnd0 : (sortDescending ((store.map (fun r => r.Bank)).dedup)).Nodup :=
    hperm.nodup_iff.mpr (List.nodup_dedup _)
  have hnd : (get_all_banks store).Nodup := hnd0.filter _
  refine ⟨hnd, ((sortDescending_sorted _).filter _).gt_of_ge hnd, fun b => ?_, rfl⟩
  show b ∈ (sortDescending ((store.map (fun r => r.Bank)).dedup)).filter
      (fun b => b != "") ↔ _
  rw [List.mem_filter, hperm.mem_iff, List.mem_dedup, List.mem_map, bne_iff_ne]
  constructor
  · rintro ⟨⟨r, hr, rfl⟩, hne⟩
    exact ⟨hne, r, hr, rfl⟩
  · rintro ⟨hne, r, hr, rfl⟩
    exact ⟨⟨r, hr, rfl⟩, hne⟩

/-- Witness for C6: on the test store the result is the three bank names in
descending order, and the general theorem instantiates. -/
theorem get_all_banks_correct_witness :
    get_all_banks demoStore = ["Bank C", "Bank B", "Bank A"] ∧
    (get_all_banks demoStore).Nodup :=
  ⟨by decide, (get_all_banks_correct demoStore).1⟩

/-- C4: `getBsbDetails` fails with 400 `"Invalid BSB format. Use XXX-XXX."`
exactly when the key is not 7 characters with a hyphen at index 3 — store
contents are irrelevant and digits are not separately validated — and a key
passing the shape check that matches no stored record fails with 404
`"BSB number not found"`. -/
theorem get_bsb_details_errors (bsb_number : String) (store : List BSBRecord) :
    (get_bsb_details bsb_number store =
        .error ⟨400, "Invalid BSB format. Use XXX-XXX."⟩ ↔
      ¬ (bsb_number.length = 7 ∧ bsb_number.data[3]? = some '-')) ∧
    (bsb_number.length = 7 → bsb_number.data[3]? = some '-' →
      store.find? (fun r => r.BSB == bsb_number) = none →
      get_bsb_details bsb_number store = .error ⟨404, "BSB number not found"⟩) := by
  constructor
  · by_cases hP : bsb_number.length = 7 ∧ bsb_number.data[3]? = some '-'
    · have hc : (bsb_number.length == 7 && bsb_number.data[3]? == some '-') = true := by
        simp [hP.1, hP.2]
      refine iff_of_false ?_ (not_not_intro hP)
      cases hfind : store.find? (fun r => r.BSB == bsb_number) with
      | none => simp [get_bsb_details, hc, hfind]
      | some r => simp [get_bsb_details, hc, hfind]
    · have hc : (bsb_number.length == 7 && bsb_number.data[3]? == some '-') = false := by
        rw [Bool.eq_false_iff]
        intro hcontra
        apply hP
        simpa using hcontra
      exact iff_of_true (by simp [get_bsb_details, hc]) hP
  · intro h1 h2 hfind
    have hc : (bsb_number.length == 7 && bsb_number.data[3]? == some '-') = true := by
      simp [h1, h2]
    simp [get_bsb_details, hc, hfind]

/-- Witness for C4: a malformed key is rejected with 400 on a non-empty
store, and a well-formed absent key yields 404. -/
theorem get_bsb_details_errors_witness :
    get_bsb_details "123456" demoStore =
      .error ⟨400, "Invalid BSB format. Use XXX-XXX."⟩ ∧
    get_bsb_details "999-999" demoStore =
      .error ⟨404, "BSB number not found"⟩ :=
  ⟨(get_bsb_details_errors "123456" demoStore).1.mpr (by decide),
   (get_bsb_details_errors "999-999" demoStore).2 (by decide) (by decide) rfl⟩

/-- C5: for a well-formed key whose record the lookup finds, `getBsbDetails`
returns the stored field values verbatim under the response keys `bsb,
bankName, branchName, street, suburb, state, postCode,
supportedPaymentSystem`, the last carrying the stored payment-systems
field. -/
theorem get_bsb_details_found (bsb_number : String) (store : List BSBRecord)
    (r : BSBRecord) (h1 : bsb_number.length = 7)
    (h2 : bsb_number.data[3]? = some '-')
    (hfind : store.find? (fun rec => rec.BSB == bsb_number) = some r) :
    get_bsb_details bsb_number store =
      .ok ⟨r.BSB, r.Bank, r.Branch, r.Street, r.Suburb, r.State, r.PostCode,
        r.Payments_Accepted⟩ := by
  have hc : (bsb_number.length == 7 && bsb_number.data[3]? == some '-') = true := by
    simp [h1, h2]
  simp [get_bsb_details, hc, hfind]

/-- Witness for C5: looking up `"222-222"` in the test store returns the
stored fields of that record verbatim. -/
theorem get_bsb_details_found_witness :
    get_bsb_details "222-222" demoStore =
      .ok ⟨"222-222", "Bank A", "Branch A1", "1 A St", "Aville", "AS", "1000",
        "EFT"⟩ :=
  get_bsb_details_found "222-222" demoStore
    ⟨"222-222", "Bank A", "Branch A1", "1 A St", "Aville", "AS", "1000", "EFT"⟩
    (by decide) (by decide) rfl

theorem parseRows_length {dat : List (List String)} {df : List BSBRecord}
    (h : parseRows dat = some df) : df.length = dat.length := by
  induction dat generalizing df with
  | nil =>
    simp only [parseRows, Option.some.injEq] at h
    subst h
    rfl
  | cons row rest ih =>
    simp only [parseRows] at h
    cases hrow : toRow row with
    | none => rw [hrow] at h; simp at h
    | some rec =>
      cases hrest : parseRows rest with
      | none => rw [hrow, hrest] at h; simp at h
      | some recs =>
        rw [hrow, hrest] at h
        simp only [Option.some.injEq] at h
        subst h
        simp [ih hrest]

theorem parseRows_getElem {dat : List (List String)} {df : List BSBRecord}
    (h : parseRows dat = some df) (i : Nat) :
    df[i]? = (dat[i]?).bind toRow := by
  induction dat generalizing df i with
  | nil =>
    simp only [parseRows, Option.some.injEq] at h
    subst h
    simp
  | cons row rest ih =>
    simp only [parseRows] at h
    cases hrow : toRow row with
    | none => rw [hrow] at h; simp at h
    | some rec =>
      cases hrest : parseRows rest with
      | none => rw [hrow, hrest] at h; simp at h
      | some recs =>
        rw [hrow, hrest] at h
        simp only [Option.some.injEq] at h
        subst h
        cases i with
        | zero => simp [hrow]
        | succ n => simp [ih hrest]

theorem toRow_fieldsOf {row : List String} {rec : BSBRecord}
    (h : toRow row = some rec) : fieldsOf rec = row := by
  unfold toRow at h
  split at h
  · injection h with h2
    subst h2
    rfl
  · exact Option.noConfusion h

/-- C3: a refresh whose fetch fails aborts in the `RequestException` handler
with the store untouched; one whose parse fails structurally aborts in the
`ParserError` handler with the store untouched; and every parse failure of
any kind leaves the store exactly as it was (all handlers only log, so
nothing escapes to a caller). -/
theorem update_failure_keeps_store (store : List BSBRecord) :
    (∀ e, update_bsb_database (.error e) store = (store, .fetchFailed)) ∧
    (∀ rows, read_csv rows = .error .tokenizeError →
      update_bsb_database (.ok rows) store = (store, .parseFailed)) ∧
    (∀ rows e, read_csv rows = .error e →
      (update_bsb_database (.ok rows) store).fst = store) := by
  refine ⟨fun e => rfl, fun rows h => ?_, fun rows e h => ?_⟩
  · simp [update_bsb_database, h]
  · cases e <;> simp [update_bsb_database, h]

/-- Witness for C3: a timed-out fetch and a structurally bad payload both
leave the test store unchanged with the corresponding outcome. -/
theorem update_failure_keeps_store_witness :
    update_bsb_database (.error .timeout) demoStore = (demoStore, .fetchFailed) ∧
    update_bsb_database (.ok [["meta line"], ["only", "two"]]) demoStore =
      (demoStore, .parseFailed) :=
  ⟨(update_failure_keeps_store demoStore).1 .timeout,
   (update_failure_keeps_store demoStore).2.1 _ rfl⟩

/-- C7: on a successful refresh the first payload line is discarded
unconditionally, the stored record count is the payload line count minus
one, and every stored field is the corresponding raw field trimmed of
leading and trailing whitespace and otherwise unmodified. -/
theorem update_success_skips_meta_and_trims (store : List BSBRecord)
    (rows : List (List String)) (df : List BSBRecord)
    (h : read_csv rows = .ok df) :
    (update_bsb_database (.ok rows) store).snd = .updated ∧
    (update_bsb_database (.ok rows) store).fst.length = rows.length - 1 ∧
    ∀ i, i < (update_bsb_database (.ok rows) store).fst.length →
      fieldsOf ((update_bsb_database (.ok rows) store).fst.getD i default) =
        (rows.getD (i + 1) []).map strip := by
  have hne : ¬ rows.drop 1 = [] := by
    intro h0
    simp [read_csv, h0] at h
  have hpr : parseRows (rows.drop 1) = some df := by
    simp only [read_csv, if_neg hne] at h
    cases hp : parseRows (rows.drop 1) with
    | none => rw [hp] at h; simp at h
    | some df0 =>
      rw [hp] at h
      simp only [Except.ok.injEq] at h
      rw [h]
  have hupd : update_bsb_database (.ok rows) store = (df.map strip_record, .updated) := by
    simp [update_bsb_database, h]
  rw [hupd]
  refine ⟨rfl, ?_, ?_⟩
  · simp [List.length_map, parseRows_length hpr, List.length_drop]
  · intro i hi
    rw [List.length_map] at hi
    have hrec : df[i]? = some df[i] := List.getElem?_eq_getElem hi
    have hbind : ((rows.drop 1)[i]?).bind toRow = some df[i] := by
      rw [← parseRows_getElem hpr i]
      exact hrec
    obtain ⟨row, hrowi, htr⟩ := Option.bind_eq_some.mp hbind
    have h1 : (df.map strip_record).getD i default = strip_record df[i] := by
      rw [List.getD_eq_getElem?_getD, List.getElem?_map, hrec]
      rfl
    have h2 : rows.getD (i + 1) [] = row := by
      rw [List.getD_eq_getElem?_getD]
      have hd : (rows.drop 1)[i]? = rows[1 + i]? := List.getElem?_drop rows 1 i
      rw [Nat.add_comm 1 i] at hd
      rw [← hd, hrowi]
      rfl
    rw [h1, h2, ← toRow_fieldsOf htr]
    simp [fieldsOf, strip_record]

/-- A two-line payload: the metadata line and one data line with whitespace
noise around every field. -/
def demoRows : List (List String) :=
  [["BSB directory metadata"],
   [" 062-000 ", " Commonwealth Bank ", " Sydney ", " 48 Martin Place ",
    " Sydney ", " NSW ", " 2000 ", " PEHS "]]

/-- The frame `read_csv` produces from `demoRows`, still untrimmed. -/
def demoDf : List BSBRecord :=
  [⟨" 062-000 ", " Commonwealth Bank ", " Sydney ", " 48 Martin Place ",
    " Sydney ", " NSW ", " 2000 ", " PEHS "⟩]

/-- Witness for C7: refreshing from the two-line payload stores exactly one
record, every field trimmed. -/
theorem update_success_skips_meta_and_trims_witness :
    (update_bsb_database (.ok demoRows) []).fst.length = demoRows.length - 1 ∧
    (update_bsb_database (.ok demoRows) []).fst =
      [⟨"062-000", "Commonwealth Bank", "Sydney", "48 Martin Place", "Sydney",
        "NSW", "2000", "PEHS"⟩] :=
  ⟨(update_success_skips_meta_and_trims [] demoRows demoDf rfl).2.1, by decide⟩

/-- C10: a payload consisting of the single metadata line alone makes
`read_csv` raise `EmptyDataError`; the generic handler catches it and the
store keeps its prior contents instead of being replaced by an empty set. -/
theorem metadata_only_refresh_fails (store : List BSBRecord)
    (metaRow : List String) :
    read_csv [metaRow] = .error .emptyData ∧
    update_bsb_database (.ok [metaRow]) store = (store, .unexpectedFailed) :=
  ⟨rfl, rfl⟩

/-- C8 refutation on the code: refreshing from a payload whose two data
lines share the BSB key `"012-345"` succeeds and stores both rows, because
`to_sql(if_exists='replace')` recreates the table without the primary-key
constraint; the store then holds two records with the same `bsb`. -/
theorem refresh_stores_duplicate_bsb :
    (update_bsb_database (.ok dupPayload) []).snd = .updated ∧
    (update_bsb_database (.ok dupPayload) []).fst.map (fun r => r.BSB) =
      ["012-345", "012-345"] ∧
    ¬ ((update_bsb_database (.ok dupPayload) []).fst.map (fun r => r.BSB)).Nodup :=
  ⟨rfl, rfl, by decide⟩

/-- C9 refutation on the code: from the empty task state, two trigger calls
followed by both tasks entering their write phase is a reachable scheduling,
so two refresh swaps can be in flight at once — the trigger endpoint spawns
a background task unconditionally and nothing serialises them. -/
theorem two_refreshes_in_flight :
    Relation.ReflTransGen RefreshStep []
      [TaskPhase.writing, TaskPhase.writing] := by
  have s1 : RefreshStep [] [TaskPhase.fetching] := RefreshStep.trigger []
  have s2 : RefreshStep [TaskPhase.fetching]
      [TaskPhase.fetching, TaskPhase.fetching] :=
    RefreshStep.trigger [TaskPhase.fetching]
  have s3 : RefreshStep [TaskPhase.fetching, TaskPhase.fetching]
      [TaskPhase.writing, TaskPhase.fetching] :=
    RefreshStep.startWrite [] [TaskPhase.fetching]
  have s4 : RefreshStep [TaskPhase.writing, TaskPhase.fetching]
      [TaskPhase.writing, TaskPhase.writing] :=
    RefreshStep.startWrite [TaskPhase.writing] []
  exact ((((Relation.ReflTransGen.refl).tail s1).tail s2).tail s3).tail s4

/-- Witness for C10: a one-line payload against the test store leaves it
unchanged with the failure caught by the generic handler. -/
theorem metadata_only_refresh_fails_witness :
    update_bsb_database (.ok [["BSB directory metadata"]]) demoStore =
      (demoStore, .unexpectedFailed) :=
  (metadata_only_refresh_fails demoStore ["BSB directory metadata"]).2
